import Mathlib

/-!
# gher: one typed function as an HTTP handler

A shallow embedding of `gher.go` (package `gher`, function `Gher`) together with the
parts of the Go standard library the handler leans on, and theorems about one call of
the handler.

Conventions of the embedding.

* A Go `string` or `[]byte` is a list of bytes (`Bytes`).
* An `io.Reader` is described by what reading it yields: the successive chunks and the
  error that ends the stream (`none` standing for `io.EOF`).
* The response sink `http.ResponseWriter` is an explicit state: every status code for
  which `WriteHeader` ran (explicitly or implied by a write), the body accepted so far,
  and whether the sink rejects writes.
* A panic is the `error` side of `Except Panic`.
* `encoding/json`'s treatment of the two type parameters and `strconv`'s table of
  printable runes above U+00FF are parameters of the model (`Lib`); everything else is
  defined here.
-/

namespace gher

/-! ## Data -/

/-- Go `string` and `[]byte` values. -/
abbrev Bytes := List Nat

/-- The bytes of an ASCII literal of the source text. -/
def lit (s : String) : Bytes := s.toList.map Char.toNat

/-- A non-nil Go `error`; `Error()` returns `msg`. -/
structure GoError where
  msg : Bytes
deriving DecidableEq, Repr

/-- The method `Error()` of an error value. -/
def GoError.Error (e : GoError) : Bytes := e.msg

/-- A runtime panic, with the text the Go runtime reports. -/
structure Panic where
  msg : String
deriving DecidableEq, Repr

/-- An `io.Reader`, described by the chunks successive `Read` calls deliver and by the
error that ends the stream; `none` is `io.EOF`. -/
structure Reader where
  chunks : List Bytes
  err : Option GoError
deriving DecidableEq, Repr

/-- Everything the reader delivers, in order. -/
def Reader.contents (r : Reader) : Bytes := r.chunks.flatten

/-- The dynamic value held by a non-nil interface, as far as the two type assertions of
the handler can tell: its dynamic type is exactly `string`, or it implements
`io.Reader`, or neither. (`string` has no methods, so the first two exclude each other.) -/
inductive Dyn where
  | string (s : Bytes)
  | reader (r : Reader)
  | other
deriving DecidableEq, Repr

/-- An interface value (`any`): `none` is the nil interface. -/
abbrev Iface := Option Dyn

/-- What the handler needs to know at run time of its type argument `I`. -/
structure InputType (I : Type) where
  /-- The zero value, which `new(I)` points to. -/
  zero : I
  /-- Conversion to `any`. It is `none` only for an interface type holding nil. -/
  toAny : I → Iface
  /-- The effect of `reflect.ValueOf(p).Elem().SetString(s)` for `p : *I` on the
  variable: the new value, or a panic when the kind of `I` is not `String`. -/
  SetString : Bytes → Except Panic I

/-- What the handler needs to know at run time of its type argument `O`. -/
structure OutputType (O : Type) where
  /-- Conversion to `any`. It is `none` only for an interface type holding nil. -/
  toAny : O → Iface

/-- The standard-library behaviour the model takes as given. -/
structure Lib (I O : Type) where
  /-- The table lookup at the end of `strconv.IsPrint`, for runes above U+00FF. -/
  isPrintWide : Nat → Bool
  /-- What `json.Decoder.Decode` makes of an input that holds more than white space,
  decoding into a variable of type `I` with the given current value. -/
  decodeValue : Reader → I → Except GoError I
  /-- The function `json.Marshal` on values of type `O`. -/
  Marshal : O → Except GoError Bytes

/-! ## package io -/

namespace io

/-- The error `io.EOF`. -/
def EOF : GoError := ⟨lit "EOF"⟩

end io

/-! ## package net/http -/

namespace http

def StatusOK : Nat := 200
def StatusBadRequest : Nat := 400
def StatusInternalServerError : Nat := 500

/-- The request as the handler uses it: the body stream and the method, the latter
standing for the metadata that is only passed on. -/
structure Request where
  Body : Reader
  Method : Bytes
deriving DecidableEq, Repr

/-- State of a response sink. `headers` lists every status code `WriteHeader` was
run with, explicit or implied by a write, oldest first: the first one is the status of
the response, every later one is a superfluous call the sink ignores. -/
structure ResponseWriter where
  headers : List Nat
  body : Bytes
  broken : Bool
deriving DecidableEq, Repr

/-- A sink nothing has been written to. -/
def ResponseWriter.fresh (broken : Bool) : ResponseWriter := ⟨[], [], broken⟩

/-- The status line of the response, once committed. -/
def ResponseWriter.status (w : ResponseWriter) : Option Nat := w.headers.head?

/-- The call `w.WriteHeader(code)`. -/
def ResponseWriter.WriteHeader (w : ResponseWriter) (code : Nat) : ResponseWriter :=
  { w with headers := w.headers ++ [code] }

/-- The call `w.Write(p)`: "if WriteHeader has not yet been called, Write calls
WriteHeader(http.StatusOK) before writing the data"; a broken sink then reports an
error and takes nothing. -/
def ResponseWriter.Write (w : ResponseWriter) (p : Bytes) : ResponseWriter × Option GoError :=
  let w1 := if w.headers.isEmpty then w.WriteHeader StatusOK else w
  if w1.broken then (w1, some ⟨lit "write failed"⟩)
  else ({ w1 with body := w1.body ++ p }, none)

end http

/-! ## package reflect -/

namespace reflect

/-- A `reflect.Value`: the zero Value, or a value. -/
inductive Value where
  | invalid
  | of (d : Dyn)
deriving DecidableEq, Repr

/-- The function `reflect.ValueOf`: "ValueOf(nil) returns the zero Value". -/
def ValueOf (i : Iface) : Value :=
  match i with
  | none => .invalid
  | some d => .of d

/-- The method `Value.Interface`, which panics on the zero Value. -/
def Value.Interface (v : Value) : Except Panic Iface :=
  match v with
  | .invalid => .error ⟨"reflect: call of reflect.Value.Interface on zero Value"⟩
  | .of d => .ok (some d)

end reflect

/-- The type assertion `x.(string)`. -/
def assertString (x : Iface) : Option Bytes :=
  match x with
  | some (.string s) => some s
  | _ => none

/-- The type assertion `x.(io.Reader)`. -/
def assertReader (x : Iface) : Option Reader :=
  match x with
  | some (.reader r) => some r
  | _ => none

/-! ## package bytes, io.Copy -/

/-- The call `buffer.ReadFrom(src)` on a new buffer: the buffer's contents afterwards and
the returned error ("any error except io.EOF encountered during the read"). -/
def bytes.Buffer.ReadFrom (src : Reader) : Bytes × Option GoError :=
  (src.contents, src.err)

/-- The copy loop of `io.Copy`: each chunk read is written to the sink; the first write
error stops the copy; at the end of the chunks the reader's own error, if any, is returned. -/
def io.copyBuffer (w : http.ResponseWriter) :
    List Bytes → Option GoError → http.ResponseWriter × Option GoError
  | [], e => (w, e)
  | c :: cs, e =>
    if c.isEmpty then io.copyBuffer w cs e
    else
      match w.Write c with
      | (w1, some ew) => (w1, some ew)
      | (w1, none) => io.copyBuffer w1 cs e

/-- The call `io.Copy(w, src)`. -/
def io.Copy (w : http.ResponseWriter) (src : Reader) : http.ResponseWriter × Option GoError :=
  io.copyBuffer w src.chunks src.err

/-! ## package unicode/utf8 -/

namespace utf8

def RuneError : Nat := 0xFFFD
def RuneSelf : Nat := 0x80

/-- The tables `first` and `acceptRanges`: for a byte that can lead a multi-byte
sequence, the length of the sequence and the bounds on its second byte. -/
def first (s0 : Nat) : Option (Nat × Nat × Nat) :=
  if 0xC2 ≤ s0 ∧ s0 ≤ 0xDF then some (2, 0x80, 0xBF)
  else if s0 = 0xE0 then some (3, 0xA0, 0xBF)
  else if 0xE1 ≤ s0 ∧ s0 ≤ 0xEC then some (3, 0x80, 0xBF)
  else if s0 = 0xED then some (3, 0x80, 0x9F)
  else if 0xEE ≤ s0 ∧ s0 ≤ 0xEF then some (3, 0x80, 0xBF)
  else if s0 = 0xF0 then some (4, 0x90, 0xBF)
  else if 0xF1 ≤ s0 ∧ s0 ≤ 0xF3 then some (4, 0x80, 0xBF)
  else if s0 = 0xF4 then some (4, 0x80, 0x8F)
  else none

/-- The function `utf8.DecodeRuneInString`: the first rune of `s` and its width in bytes. -/
def DecodeRuneInString (s : Bytes) : Nat × Nat :=
  match s with
  | [] => (RuneError, 0)
  | s0 :: t =>
    if s0 < RuneSelf then (s0, 1)
    else
      match first s0 with
      | none => (RuneError, 1)
      | some (sz, lo, hi) =>
        if s.length < sz then (RuneError, 1)
        else
          match t with
          | [] => (RuneError, 1)
          | s1 :: t1 =>
            if s1 < lo ∨ hi < s1 then (RuneError, 1)
            else if sz ≤ 2 then ((s0 % 32) * 64 + s1 % 64, 2)
            else
              match t1 with
              | [] => (RuneError, 1)
              | s2 :: t2 =>
                if s2 < 0x80 ∨ 0xBF < s2 then (RuneError, 1)
                else if sz ≤ 3 then ((s0 % 16) * 4096 + (s1 % 64) * 64 + s2 % 64, 3)
                else
                  match t2 with
                  | [] => (RuneError, 1)
                  | s3 :: _ =>
                    if s3 < 0x80 ∨ 0xBF < s3 then (RuneError, 1)
                    else ((s0 % 8) * 262144 + (s1 % 64) * 4096 + (s2 % 64) * 64 + s3 % 64, 4)

/-- The function `utf8.ValidRune`. -/
def ValidRune (r : Nat) : Bool :=
  r < 0xD800 || (0xDFFF < r && r ≤ 0x10FFFF)

/-- The function `utf8.AppendRune` on an empty buffer: the UTF-8 encoding of `r`. -/
def AppendRune (r : Nat) : Bytes :=
  if r ≤ 0x7F then [r]
  else if r ≤ 0x7FF then [0xC0 + r / 64, 0x80 + r % 64]
  else if 0x10FFFF < r ∨ (0xD800 ≤ r ∧ r ≤ 0xDFFF) then [0xEF, 0xBF, 0xBD]
  else if r ≤ 0xFFFF then [0xE0 + r / 4096, 0x80 + (r / 64) % 64, 0x80 + r % 64]
  else [0xF0 + r / 262144, 0x80 + (r / 4096) % 64, 0x80 + (r / 64) % 64, 0x80 + r % 64]

end utf8

/-! ## package strconv -/

namespace strconv

/-- The digit `lowerhex[n]`, where `lowerhex = "0123456789abcdef"`. -/
def lowerhex (n : Nat) : Nat := (lit "0123456789abcdef").getD n 0

/-- The function `strconv.IsPrint`; `wide` is its table lookup for runes above U+00FF. -/
def IsPrint (wide : Nat → Bool) (r : Nat) : Bool :=
  if r ≤ 0xFF then
    if 0x20 ≤ r ∧ r ≤ 0x7E then true
    else if 0xA1 ≤ r ∧ r ≤ 0xFF then r != 0xAD
    else false
  else wide r

/-- The function `appendEscapedRune` for the quote `"`, with `ASCIIonly` and
`graphicOnly` false, on an empty buffer. -/
def appendEscapedRune (wide : Nat → Bool) (r : Nat) : Bytes :=
  if r = 34 ∨ r = 92 then [92, r]
  else if IsPrint wide r then utf8.AppendRune r
  else if r = 7 then lit "\\a"
  else if r = 8 then lit "\\b"
  else if r = 12 then lit "\\f"
  else if r = 10 then lit "\\n"
  else if r = 13 then lit "\\r"
  else if r = 9 then lit "\\t"
  else if r = 11 then lit "\\v"
  else if r < 32 ∨ r = 0x7F then lit "\\x" ++ [lowerhex (r / 16), lowerhex (r % 16)]
  else
    let r1 := if utf8.ValidRune r then r else 0xFFFD
    if r1 < 0x10000 then
      lit "\\u" ++ [lowerhex (r1 / 4096 % 16), lowerhex (r1 / 256 % 16),
        lowerhex (r1 / 16 % 16), lowerhex (r1 % 16)]
    else
      lit "\\U" ++ [lowerhex (r1 / 268435456 % 16), lowerhex (r1 / 16777216 % 16),
        lowerhex (r1 / 1048576 % 16), lowerhex (r1 / 65536 % 16),
        lowerhex (r1 / 4096 % 16), lowerhex (r1 / 256 % 16),
        lowerhex (r1 / 16 % 16), lowerhex (r1 % 16)]

/-- The loop of `appendQuotedWith`. The Go loop advances by `s = s[width:]`; here
`skip` counts the bytes of the current rune still to be passed over. -/
def quoteLoop (wide : Nat → Bool) : Nat → Bytes → Bytes
  | _, [] => []
  | skip + 1, _ :: t => quoteLoop wide skip t
  | 0, s0 :: t =>
    let rw := if utf8.RuneSelf ≤ s0 then utf8.DecodeRuneInString (s0 :: t) else (s0, 1)
    (if rw.2 = 1 ∧ rw.1 = utf8.RuneError then
        lit "\\x" ++ [lowerhex (s0 / 16), lowerhex (s0 % 16)]
      else appendEscapedRune wide rw.1)
      ++ quoteLoop wide (rw.2 - 1) t

/-- The function `strconv.Quote`: "a double-quoted Go string literal representing s". -/
def Quote (wide : Nat → Bool) (s : Bytes) : Bytes :=
  [34] ++ quoteLoop wide 0 s ++ [34]

end strconv

/-! ## package fmt -/

/-- The function `fmt.Sprintf` for a format with one verb, `%q` or `%s`, and one string
operand: the text around the verb is copied, `%q` is `strconv.Quote` of the operand
and `%s` the operand itself. -/
def fmt.Sprintf (wide : Nat → Bool) : Bytes → Bytes → Bytes
  | [], _ => []
  | 37 :: 113 :: rest, a => strconv.Quote wide a ++ rest
  | 37 :: 115 :: rest, a => a ++ rest
  | c :: rest, a => c :: fmt.Sprintf wide rest a

/-- The function `fmt.Errorf` for a format without verbs. -/
def fmt.Errorf (format : Bytes) : GoError := ⟨format⟩

/-! ## package encoding/json -/

namespace json

/-- The scanner's `isSpace`. -/
def isSpace (c : Nat) : Bool := c = 32 || c = 9 || c = 13 || c = 10

/-- The call `json.NewDecoder(src).Decode(&v)` on a new decoder. When the input ends
(or fails) before anything but white space was read, no value is there to decode and
`Decode` returns the error that ended the input, `io.EOF` for a plain end. Otherwise
the outcome is the library's, `lib.decodeValue`. The result is the new value of `v`. -/
def Decoder.Decode {I O : Type} (lib : Lib I O) (src : Reader) (v : I) : Except GoError I :=
  if src.contents.all isSpace then .error (src.err.getD io.EOF)
  else lib.decodeValue src v

/-- The call `json.NewEncoder(w).Encode(v)`: the value is marshalled first; on an error
nothing is written; otherwise the encoding and a newline go to the sink in one write,
whose error is returned. -/
def Encoder.Encode {I O : Type} (lib : Lib I O) (w : http.ResponseWriter) (v : O) :
    http.ResponseWriter × Option GoError :=
  match lib.Marshal v with
  | .error e => (w, some e)
  | .ok b => w.Write (b ++ [10])

end json

deriving instance DecidableEq for Except

/-! ## gher.go -/

/-- What one call of the handler leaves behind: the response sink, the inputs the
wrapped function was invoked with, in order, and the panic that ended the call, if any. -/
structure Exchange (I : Type) where
  w : http.ResponseWriter
  calls : List I
  panic : Option Panic
deriving DecidableEq, Repr

/-- Lines 18 to 36 of `gher.go`, the acquisition of the input. The result is a panic,
or the sink after a failure response was written (`Sum.inl`), or the input (`Sum.inr`). -/
def Gher.input {I O : Type} (lib : Lib I O) (TI : InputType I)
    (w : http.ResponseWriter) (r : http.Request) : Except Panic (http.ResponseWriter ⊕ I) :=
  let i := TI.zero
  match (reflect.ValueOf (TI.toAny i)).Interface with
  | .error p => .error p
  | .ok x =>
    match assertString x with
    | some _ =>
      match bytes.Buffer.ReadFrom r.Body with
      | (_, some _) =>
        let w1 := w.WriteHeader http.StatusInternalServerError
        .ok (.inl (w1.Write (lit "\x7b\"error\": \"failed to read request\"\x7d")).1)
      | (buffer, none) =>
        match TI.SetString buffer with
        | .error p => .error p
        | .ok i1 => .ok (.inr i1)
    | none =>
      match json.Decoder.Decode lib r.Body i with
      | .error _ =>
        let w1 := w.WriteHeader http.StatusBadRequest
        .ok (.inl (w1.Write (lit "\x7b\"error\": \"failed to parse request\"\x7d")).1)
      | .ok i1 => .ok (.inr i1)

/-- One call of the handler `Gher(next)` on the sink `w` and the request `r`. The type
arguments of the Go function appear as `TI` and `TO`. The request is handed to `next`
as it was received (how far its body was read is not tracked). -/
def Gher {I O : Type} (lib : Lib I O) (TI : InputType I) (TO : OutputType O)
    (next : I → http.Request → O × Option GoError)
    (w : http.ResponseWriter) (r : http.Request) : Exchange I :=
  match Gher.input lib TI w r with
  | .error p => ⟨w, [], some p⟩
  | .ok (.inl w1) => ⟨w1, [], none⟩
  | .ok (.inr i) =>
    match next i r with
    | (_, some err) =>
      let e := fmt.Sprintf lib.isPrintWide (lit "\x7b\"error\": %q\x7d") err.Error
      let w1 := w.WriteHeader http.StatusInternalServerError
      ⟨(w1.Write e).1, [i], none⟩
    | (o, none) =>
      match (reflect.ValueOf (TO.toAny o)).Interface with
      | .error p => ⟨w, [i], some p⟩
      | .ok x =>
        match assertReader x with
        | some oreader =>
          let w1 := w.WriteHeader http.StatusOK
          ⟨(io.Copy w1 oreader).1, [i], none⟩
        | none =>
          match (reflect.ValueOf (TO.toAny o)).Interface with
          | .error p => ⟨w, [i], some p⟩
          | .ok y =>
            match assertString y with
            | some ostring =>
              let w1 := w.WriteHeader http.StatusOK
              ⟨(w1.Write ostring).1, [i], none⟩
            | none =>
              match json.Encoder.Encode lib w o with
              | (w1, some _) =>
                let w2 := w1.WriteHeader http.StatusInternalServerError
                ⟨(w2.Write (lit "\x7b\"error\": \"failed to encode response\"\x7d")).1, [i], none⟩
              | (w1, none) => ⟨w1, [i], none⟩

/-! ## Go types used as type arguments -/

/-- The type `string`. -/
def InputType.string : InputType Bytes :=
  ⟨[], fun s => some (.string s), fun s => .ok s⟩

/-- A concrete type of the given kind and zero value that is neither `string` nor a
reader: boxed in an interface it is not nil, and its kind is not `String`. -/
def InputType.concrete {T : Type} (kind : String) (zero : T) : InputType T :=
  ⟨zero, fun _ => some .other,
    fun _ => .error ⟨"reflect: call of reflect.Value.SetString on " ++ kind ++ " Value"⟩⟩

/-- A struct type with the given zero value. -/
def InputType.struct {T : Type} (zero : T) : InputType T :=
  InputType.concrete "struct" zero

/-- A pointer type `*T`: `none` is the nil pointer, its zero value. -/
def InputType.pointer (T : Type) : InputType (Option T) :=
  InputType.concrete "ptr" none

/-- The interface type `any`: its zero value is the nil interface. -/
def InputType.any : InputType Iface :=
  ⟨none, fun x => x,
    fun _ => .error ⟨"reflect: call of reflect.Value.SetString on interface Value"⟩⟩

/-- The type `string`. -/
def OutputType.string : OutputType Bytes := ⟨fun s => some (.string s)⟩

/-- A type implementing `io.Reader`, such as `*bytes.Buffer` for a non-nil buffer. -/
def OutputType.reader : OutputType Reader := ⟨fun b => some (.reader b)⟩

/-- A struct type, or any other concrete type that is neither `string` nor a reader. -/
def OutputType.struct (T : Type) : OutputType T := ⟨fun _ => some .other⟩

/-- The interface type `any`, whose values may be nil. -/
def OutputType.any : OutputType Iface := ⟨fun x => x⟩

/-! ## gher_test.go: the wrapped functions of the tests -/

namespace tests

/-- The struct `Person`. -/
structure Person where
  Name : Bytes
deriving DecidableEq, Repr

section
variable (wide : Nat → Bool)

def Hello (p : Person) (_ : http.Request) : Bytes × Option GoError :=
  (fmt.Sprintf wide (lit "Hello, %s!") p.Name, none)

def HelloErr (p : Person) (_ : http.Request) : Bytes × Option GoError :=
  (fmt.Sprintf wide (lit "Hello, %s!") p.Name, some (fmt.Errorf (lit "something went wrong")))

def HelloReader (p : Person) (_ : http.Request) : Reader × Option GoError :=
  (⟨[fmt.Sprintf wide (lit "Hello, %s!") p.Name], none⟩, none)

def HelloInString (name : Bytes) (_ : http.Request) : Bytes × Option GoError :=
  (fmt.Sprintf wide (lit "Hello, %s!") name, none)

def HelloInPointer (p : Option Person) (_ : http.Request) : Bytes × Option GoError :=
  match p with
  | none => ([], some (fmt.Errorf (lit "nil pointer")))
  | some q => (fmt.Sprintf wide (lit "Hello, %s!") q.Name, none)

end

def HelloStruct (p : Person) (_ : http.Request) : Person × Option GoError :=
  (p, none)

def HelloEmpty (_ : Unit) (_ : http.Request) : Bytes × Option GoError :=
  (lit "empty", none)

end tests

/-! ## Fixtures: `encoding/json` on the values of the tests -/

namespace tests

/-- The table for runes above U+00FF used with the fixtures; no text of the tests
holds such a rune. -/
def wide : Nat → Bool := fun _ => false

/-- Decoding into a `Person` on the two bodies the tests post to such a handler: the
object `{"name":"World"}` gives `Person{Name: "World"}`, and `invalid json` is a
syntax error. Other bodies are not described and get the same error. -/
def decodePerson (src : Reader) (_ : Person) : Except GoError Person :=
  if src.contents = lit "\x7b\"name\":\"World\"\x7d" then .ok ⟨lit "World"⟩
  else .error ⟨lit "invalid character 'i' looking for beginning of value"⟩

/-- The function `json.Marshal` on a `Person` whose name needs no escaping, as in the tests. -/
def marshalPerson (p : Person) : Except GoError Bytes :=
  .ok (lit "\x7b\"name\":\"" ++ p.Name ++ lit "\"\x7d")

/-- The function `json.Marshal` on a `string` that needs no escaping, as in the tests. -/
def marshalText (t : Bytes) : Except GoError Bytes :=
  .ok ([34] ++ t ++ [34])

/-- The function `json.Marshal` on a `*bytes.Buffer`, a struct without exported fields. -/
def marshalBuffer (_ : Reader) : Except GoError Bytes :=
  .ok (lit "\x7b\x7d")

/-- Decoding into a `string` on the body the tests post to such a handler, `World`,
which is not JSON. Other bodies are not described and get the same error. The handler
does not decode at this type: it takes the body as it is. -/
def decodeText (_ : Reader) (_ : Bytes) : Except GoError Bytes :=
  .error ⟨lit "invalid character 'W' looking for beginning of value"⟩

/-- The function `json.Marshal` on a channel, a type it does not support. -/
def marshalChan (_ : Unit) : Except GoError Bytes :=
  .error ⟨lit "json: unsupported type: chan int"⟩

/-- Decoding into an `any` on the body `invalid json`, a syntax error. Other bodies are
not described and get the same error. -/
def decodeAny (_ : Reader) (_ : Iface) : Except GoError Iface :=
  .error ⟨lit "invalid character 'i' looking for beginning of value"⟩

/-- The library for handlers from `any` to `string`. -/
def libAny : Lib Iface Bytes :=
  ⟨wide, decodeAny, marshalText⟩

/-- The library for handlers from `Person` to `O`, with `json.Marshal` on `O` given. -/
def libPerson {O : Type} (marshal : O → Except GoError Bytes) : Lib Person O :=
  ⟨wide, decodePerson, marshal⟩

/-- The request `POST` with the given body, delivered in one chunk. -/
def post (body : Bytes) : http.Request := ⟨⟨[body], none⟩, lit "POST"⟩

/-- The request `POST` without a body, as sent by `http.Post(url, contentType, nil)`. -/
def postNoBody : http.Request := ⟨⟨[], none⟩, lit "POST"⟩

end tests

/-! # Theorems -/

open http

/-! ## The response sink, the copy loop, quoting -/

/-- A write after an explicit `WriteHeader` on a working sink: the body grows, no status is added. -/
theorem Write_after_header (w : ResponseWriter) (c : Nat) (p : Bytes) (hb : w.broken = false) :
    (w.WriteHeader c).Write p =
      (⟨w.headers ++ [c], w.body ++ p, false⟩, none) := by
  simp [ResponseWriter.Write, ResponseWriter.WriteHeader, hb]

/-- On a working sink with a committed status the copy loop appends every chunk, in order. -/
theorem copyBuffer_ok (cs : List Bytes) (e : Option GoError) :
    ∀ w : ResponseWriter, w.broken = false → w.headers ≠ [] →
      io.copyBuffer w cs e = (⟨w.headers, w.body ++ cs.flatten, false⟩, e) := by
  induction cs with
  | nil =>
    intro w hb _
    cases w
    simp_all [io.copyBuffer]
  | cons c cs ih =>
    intro w hb hh
    by_cases hc : c = []
    · subst hc
      simpa [io.copyBuffer] using ih w hb hh
    · have hw : w.Write c = (⟨w.headers, w.body ++ c, false⟩, none) := by
        simp [ResponseWriter.Write, hb, hh]
      simp [io.copyBuffer, hc, hw, ih, hh, List.append_assoc]

/-- Printable ASCII other than the double quote and the backslash is quoted as itself. -/
theorem quoteLoop_plain (wide : Nat → Bool) (s : Bytes)
    (h : ∀ b ∈ s, 32 ≤ b ∧ b ≤ 126 ∧ b ≠ 34 ∧ b ≠ 92) :
    strconv.quoteLoop wide 0 s = s := by
  induction s with
  | nil => rfl
  | cons b t ih =>
    have hb := h b (List.mem_cons_self b t)
    have ht := ih (fun x hx => h x (List.mem_cons_of_mem b hx))
    obtain ⟨h1, h2, h3, h4⟩ := hb
    have hlt : ¬ (utf8.RuneSelf ≤ b) := by simp [utf8.RuneSelf]; omega
    have hne : b ≠ utf8.RuneError := by simp [utf8.RuneError]; omega
    have hp : strconv.IsPrint wide b = true := by
      have h255 : b ≤ 255 := by omega
      simp [strconv.IsPrint, h255, h1, h2]
    have hesc : strconv.appendEscapedRune wide b = [b] := by
      simp [strconv.appendEscapedRune, h3, h4, hp, utf8.AppendRune]
      omega
    simp [strconv.quoteLoop, hlt, hne, hesc, ht]

/-! ## The handler -/

/-- The assertion to `string` fails on a value of another dynamic type. -/
theorem assertString_of_not_string (d : Dyn) (hd : ∀ s, d ≠ Dyn.string s) :
    assertString (some d) = none := by
  cases d with
  | string s => exact absurd rfl (hd s)
  | reader r => rfl
  | other => rfl

/-- Whenever the input was acquired, the wrapped function is invoked exactly once, with it. -/
theorem Gher_calls_of_input {I O : Type} (lib : Lib I O) (TI : InputType I)
    (TO : OutputType O) (next : I → Request → O × Option GoError)
    (w : ResponseWriter) (r : Request) (i : I)
    (hin : Gher.input lib TI w r = .ok (.inr i)) :
    (Gher lib TI TO next w r).calls = [i] := by
  unfold Gher
  rw [hin]
  simp only
  split
  · rfl
  · split
    · rfl
    · split
      · rfl
      · split
        · rfl
        · split
          · rfl
          · split <;> rfl

/-- C1, as amended. When the input was acquired and the wrapped function returns a non-nil
error with message `m`, the handler writes status 500 and the body `{"error": ` followed
by the Go-quoted (`%q`) form of `m` and `}`, with no trailing newline; the function was
invoked once and the output returned alongside the error is not written. When `m` holds
only printable ASCII bytes other than the double quote and the backslash, that body is
exactly `{"error": "` followed by `m` and `"}`. -/
theorem Gher_handler_error {I O : Type} (lib : Lib I O) (TI : InputType I)
    (TO : OutputType O) (next : I → Request → O × Option GoError) (r : Request)
    (i : I) (o : O) (e : GoError)
    (hin : Gher.input lib TI (ResponseWriter.fresh false) r = .ok (.inr i))
    (hnext : next i r = (o, some e)) :
    Gher lib TI TO next (ResponseWriter.fresh false) r =
        ⟨⟨[500], lit "\x7b\"error\": " ++ strconv.Quote lib.isPrintWide e.Error ++ lit "\x7d",
          false⟩, [i], none⟩ ∧
      ((∀ b ∈ e.Error, 32 ≤ b ∧ b ≤ 126 ∧ b ≠ 34 ∧ b ≠ 92) →
        (Gher lib TI TO next (ResponseWriter.fresh false) r).w.body =
          lit "\x7b\"error\": \"" ++ e.Error ++ lit "\"\x7d") := by
  have hfmt : fmt.Sprintf lib.isPrintWide (lit "\x7b\"error\": %q\x7d") e.Error =
      lit "\x7b\"error\": " ++ strconv.Quote lib.isPrintWide e.Error ++ lit "\x7d" := rfl
  have hres : Gher lib TI TO next (ResponseWriter.fresh false) r =
      ⟨⟨[500], lit "\x7b\"error\": " ++ strconv.Quote lib.isPrintWide e.Error ++ lit "\x7d",
        false⟩, [i], none⟩ := by
    unfold Gher
    rw [hin]
    simp only [hnext, hfmt]
    rw [Write_after_header _ _ _ rfl]
    simp [ResponseWriter.fresh, StatusInternalServerError]
  refine ⟨hres, ?_⟩
  intro hplain
  rw [hres]
  simp only [strconv.Quote, quoteLoop_plain lib.isPrintWide e.Error hplain]
  simp [lit, List.append_assoc]

open tests

/-- Once a status is committed, the copy loop leaves the status codes as they are. -/
theorem copyBuffer_headers (cs : List Bytes) (e : Option GoError) :
    ∀ w : ResponseWriter, w.headers ≠ [] → (io.copyBuffer w cs e).1.headers = w.headers := by
  induction cs with
  | nil => intro w _; rfl
  | cons c cs ih =>
    intro w hh
    by_cases hc : c = []
    · subst hc
      simpa [io.copyBuffer] using ih w hh
    · by_cases hb : w.broken = true
      · simp [io.copyBuffer, hc, ResponseWriter.Write, hh, hb]
      · have hw : w.Write c = (⟨w.headers, w.body ++ c, w.broken⟩, none) := by
          simp [ResponseWriter.Write, hb, hh]
        simp only [io.copyBuffer, hc, hw, List.isEmpty_eq_true, if_false]
        exact ih _ hh

/-- A failure response of the input acquisition carries exactly one status code. -/
theorem input_headers {I O : Type} (lib : Lib I O) (TI : InputType I) (r : Request)
    (broken : Bool) (w1 : ResponseWriter)
    (h : Gher.input lib TI (ResponseWriter.fresh broken) r = .ok (.inl w1)) :
    ∃ c, w1.headers = [c] := by
  unfold Gher.input at h
  simp only at h
  split at h
  · cases h
  · split at h
    · split at h
      · cases h
        exact ⟨500, by simp [ResponseWriter.Write, ResponseWriter.WriteHeader,
            ResponseWriter.fresh, StatusInternalServerError]; split <;> rfl⟩
      · split at h <;> cases h
    · split at h
      · cases h
        exact ⟨400, by simp [ResponseWriter.Write, ResponseWriter.WriteHeader,
            ResponseWriter.fresh, StatusBadRequest]; split <;> rfl⟩
      · cases h

/-- A write after an explicit `WriteHeader` adds no status code. -/
theorem Write_headers_after_header (w : ResponseWriter) (c : Nat) (p : Bytes) :
    ((w.WriteHeader c).Write p).1.headers = w.headers ++ [c] := by
  simp [ResponseWriter.Write, ResponseWriter.WriteHeader]
  split <;> rfl

/-- On a sink nothing was written to, a call that does not panic leaves exactly one status
code behind, except on one path: when the sink rejects the write of a structured output,
where 200 was implied by the write and 500 is attempted after it. -/
theorem Gher_status_codes {I O : Type} (lib : Lib I O) (TI : InputType I)
    (TO : OutputType O) (next : I → Request → O × Option GoError) (r : Request)
    (broken : Bool)
    (hp : (Gher lib TI TO next (ResponseWriter.fresh broken) r).panic = none) :
    (∃ c, (Gher lib TI TO next (ResponseWriter.fresh broken) r).w.headers = [c]) ∨
      (broken = true ∧
        (Gher lib TI TO next (ResponseWriter.fresh broken) r).w.headers = [200, 500]) := by
  cases hin : Gher.input lib TI (ResponseWriter.fresh broken) r with
  | error p => simp [Gher, hin] at hp
  | ok v =>
    cases v with
    | inl w1 =>
      left
      simpa [Gher, hin] using input_headers lib TI r broken w1 hin
    | inr i =>
      cases hnext : next i r with
      | mk o oe =>
        cases oe with
        | some err =>
          left
          refine ⟨500, ?_⟩
          simp only [Gher, hin, hnext]
          rw [Write_headers_after_header]
          rfl
        | none =>
          cases ho : TO.toAny o with
          | none =>
            simp [Gher, hin, hnext, ho, reflect.ValueOf, reflect.Value.Interface] at hp
          | some d =>
            cases d with
            | string s =>
              left
              refine ⟨200, ?_⟩
              simp only [Gher, hin, hnext, ho, reflect.ValueOf, reflect.Value.Interface,
                assertReader, assertString]
              rw [Write_headers_after_header]
              rfl
            | reader src =>
              left
              refine ⟨200, ?_⟩
              simp only [Gher, hin, hnext, ho, reflect.ValueOf, reflect.Value.Interface,
                assertReader, io.Copy]
              rw [copyBuffer_headers _ _ _ (by simp [ResponseWriter.WriteHeader])]
              rfl
            | other =>
              cases hm : lib.Marshal o with
              | error e =>
                left
                refine ⟨500, ?_⟩
                simp only [Gher, hin, hnext, ho, reflect.ValueOf, reflect.Value.Interface,
                  assertReader, assertString, json.Encoder.Encode, hm]
                rw [Write_headers_after_header]
                rfl
              | ok b =>
                cases broken with
                | false =>
                  left
                  refine ⟨200, ?_⟩
                  simp only [Gher, hin, hnext, ho, reflect.ValueOf, reflect.Value.Interface,
                    assertReader, assertString, json.Encoder.Encode, hm]
                  simp [ResponseWriter.Write, ResponseWriter.WriteHeader, ResponseWriter.fresh,
                    StatusOK]
                | true =>
                  right
                  refine ⟨rfl, ?_⟩
                  simp only [Gher, hin, hnext, ho, reflect.ValueOf, reflect.Value.Interface,
                    assertReader, assertString, json.Encoder.Encode, hm]
                  simp [ResponseWriter.Write, ResponseWriter.WriteHeader, ResponseWriter.fresh,
                    StatusOK, StatusInternalServerError]

/-- The theorem `Gher_handler_error` at `TestGherHandlerError`: `HelloErr` on the body
`{"name":"World"}`. -/
theorem Gher_handler_error_witness :
    (Gher.input (libPerson marshalText) (InputType.struct ⟨[]⟩) (ResponseWriter.fresh false)
          (post (lit "\x7b\"name\":\"World\"\x7d")) = .ok (.inr ⟨lit "World"⟩) ∧
      HelloErr wide ⟨lit "World"⟩ (post (lit "\x7b\"name\":\"World\"\x7d")) =
        (lit "Hello, World!", some (fmt.Errorf (lit "something went wrong"))) ∧
      (∀ b ∈ (fmt.Errorf (lit "something went wrong")).Error,
        32 ≤ b ∧ b ≤ 126 ∧ b ≠ 34 ∧ b ≠ 92)) ∧
    Gher (libPerson marshalText) (InputType.struct ⟨[]⟩) OutputType.string (HelloErr wide)
          (ResponseWriter.fresh false) (post (lit "\x7b\"name\":\"World\"\x7d")) =
        ⟨⟨[500], lit "\x7b\"error\": " ++
            strconv.Quote wide (lit "something went wrong") ++ lit "\x7d", false⟩,
          [⟨lit "World"⟩], none⟩ ∧
    (Gher (libPerson marshalText) (InputType.struct ⟨[]⟩) OutputType.string (HelloErr wide)
          (ResponseWriter.fresh false) (post (lit "\x7b\"name\":\"World\"\x7d"))).w.body =
        lit "\x7b\"error\": \"" ++ lit "something went wrong" ++ lit "\"\x7d" :=
  ⟨⟨by decide, by decide, by decide⟩,
    (Gher_handler_error (libPerson marshalText) (InputType.struct ⟨[]⟩) OutputType.string
      (HelloErr wide) (post (lit "\x7b\"name\":\"World\"\x7d")) ⟨lit "World"⟩
      (lit "Hello, World!") (fmt.Errorf (lit "something went wrong"))
      (by decide) (by decide)).1,
    (Gher_handler_error (libPerson marshalText) (InputType.struct ⟨[]⟩) OutputType.string
      (HelloErr wide) (post (lit "\x7b\"name\":\"World\"\x7d")) ⟨lit "World"⟩
      (lit "Hello, World!") (fmt.Errorf (lit "something went wrong"))
      (by decide) (by decide)).2 (by decide)⟩

/-- C1 as stated fails for a message holding double quotes. With the message `say "hi"` the
input is acquired, and the body is `{"error": "say \"hi\""}`, each quote escaped by
`%q`, not `{"error": "say "hi""}`. -/
theorem Gher_handler_error_quoted_counterexample :
    Gher.input (libPerson marshalText) (InputType.struct ⟨[]⟩) (ResponseWriter.fresh false)
        (post (lit "\x7b\"name\":\"World\"\x7d")) = .ok (.inr ⟨lit "World"⟩) ∧
      (Gher (libPerson marshalText) (InputType.struct ⟨[]⟩) OutputType.string
          (fun _ _ => (lit "", some (fmt.Errorf (lit "say \"hi\""))))
          (ResponseWriter.fresh false) (post (lit "\x7b\"name\":\"World\"\x7d"))).w.body =
        lit "\x7b\"error\": \"say \\\"hi\\\"\"\x7d" ∧
      (Gher (libPerson marshalText) (InputType.struct ⟨[]⟩) OutputType.string
          (fun _ _ => (lit "", some (fmt.Errorf (lit "say \"hi\""))))
          (ResponseWriter.fresh false) (post (lit "\x7b\"name\":\"World\"\x7d"))).w.body ≠
        lit "\x7b\"error\": \"" ++ lit "say \"hi\"" ++ lit "\"\x7d" := by
  decide

/-- When the zero input is a value other than a `string` and `Decode` reports an error,
the input acquisition ends with the 400 response. -/
theorem input_of_decode_error {I O : Type} (lib : Lib I O) (TI : InputType I) (r : Request)
    (d : Dyn) (e : GoError)
    (hzero : TI.toAny TI.zero = some d) (hd : ∀ s, d ≠ Dyn.string s)
    (hdec : json.Decoder.Decode lib r.Body TI.zero = .error e) :
    Gher.input lib TI (ResponseWriter.fresh false) r =
      .ok (.inl ⟨[400], lit "\x7b\"error\": \"failed to parse request\"\x7d", false⟩) := by
  unfold Gher.input
  simp only [hzero, reflect.ValueOf, reflect.Value.Interface,
    assertString_of_not_string d hd, hdec]
  rw [Write_after_header _ _ _ rfl]
  simp [ResponseWriter.fresh, StatusBadRequest]

/-- For an input type that is not an interface type and not `string` (its zero value,
boxed in an interface, is a value other than a `string`), and a request on whose body
`Decode` reports an error, the handler writes status 400 with body exactly
`{"error": "failed to parse request"}` and the wrapped function is not invoked. -/
theorem Gher_parse_error {I O : Type} (lib : Lib I O) (TI : InputType I)
    (TO : OutputType O) (next : I → Request → O × Option GoError) (r : Request)
    (d : Dyn) (e : GoError)
    (hzero : TI.toAny TI.zero = some d) (hd : ∀ s, d ≠ Dyn.string s)
    (hdec : json.Decoder.Decode lib r.Body TI.zero = .error e) :
    Gher lib TI TO next (ResponseWriter.fresh false) r =
      ⟨⟨[400], lit "\x7b\"error\": \"failed to parse request\"\x7d", false⟩, [], none⟩ := by
  have hin := input_of_decode_error lib TI r d e hzero hd hdec
  unfold Gher
  rw [hin]

/-- The test `TestGherParseError`: `Hello` on the body `invalid json` is answered 400. -/
theorem Gher_parse_error_witness :
    ((InputType.struct (⟨[]⟩ : Person)).toAny (InputType.struct (⟨[]⟩ : Person)).zero =
          some Dyn.other ∧
      (∀ s, Dyn.other ≠ Dyn.string s) ∧
      json.Decoder.Decode (libPerson marshalText) (post (lit "invalid json")).Body
          (InputType.struct (⟨[]⟩ : Person)).zero =
        .error ⟨lit "invalid character 'i' looking for beginning of value"⟩) ∧
    Gher (libPerson marshalText) (InputType.struct ⟨[]⟩) OutputType.string (Hello wide)
        (ResponseWriter.fresh false) (post (lit "invalid json")) =
      ⟨⟨[400], lit "\x7b\"error\": \"failed to parse request\"\x7d", false⟩, [], none⟩ :=
  ⟨⟨rfl, fun _ h => Dyn.noConfusion h, by decide⟩,
    Gher_parse_error (libPerson marshalText) (InputType.struct ⟨[]⟩) OutputType.string
      (Hello wide) (post (lit "invalid json")) Dyn.other
      ⟨lit "invalid character 'i' looking for beginning of value"⟩
      rfl (fun _ h => Dyn.noConfusion h) (by decide)⟩

/-- When the input was acquired and the wrapped function returns a nil error and an
output that is a non-nil value, neither a reader nor a `string`, with JSON encoding `b`,
the handler leaves status 200 and the body `b` followed by one newline. -/
theorem Gher_structured_output {I O : Type} (lib : Lib I O) (TI : InputType I)
    (TO : OutputType O) (next : I → Request → O × Option GoError) (r : Request)
    (i : I) (o : O) (b : Bytes)
    (hin : Gher.input lib TI (ResponseWriter.fresh false) r = .ok (.inr i))
    (hnext : next i r = (o, none))
    (ho : TO.toAny o = some Dyn.other)
    (hm : lib.Marshal o = .ok b) :
    Gher lib TI TO next (ResponseWriter.fresh false) r =
      ⟨⟨[200], b ++ [10], false⟩, [i], none⟩ := by
  unfold Gher
  rw [hin]
  simp [hnext, ho, reflect.ValueOf, reflect.Value.Interface, assertReader, assertString,
    json.Encoder.Encode, hm, ResponseWriter.Write, ResponseWriter.fresh,
    ResponseWriter.WriteHeader, StatusOK]

/-- The test `TestGherStruct`: `HelloStruct` on the body `{"name":"World"}` answers
`{"name":"World"}` and a newline. -/
theorem Gher_structured_output_witness :
    (Gher.input (libPerson marshalPerson) (InputType.struct ⟨[]⟩) (ResponseWriter.fresh false)
          (post (lit "\x7b\"name\":\"World\"\x7d")) = .ok (.inr ⟨lit "World"⟩) ∧
      HelloStruct ⟨lit "World"⟩ (post (lit "\x7b\"name\":\"World\"\x7d")) =
        (⟨lit "World"⟩, none) ∧
      (OutputType.struct Person).toAny ⟨lit "World"⟩ = some Dyn.other ∧
      (libPerson marshalPerson).Marshal ⟨lit "World"⟩ =
        .ok (lit "\x7b\"name\":\"World\"\x7d")) ∧
    Gher (libPerson marshalPerson) (InputType.struct ⟨[]⟩) (OutputType.struct Person)
        HelloStruct (ResponseWriter.fresh false) (post (lit "\x7b\"name\":\"World\"\x7d")) =
      ⟨⟨[200], lit "\x7b\"name\":\"World\"\x7d" ++ [10], false⟩, [⟨lit "World"⟩], none⟩ :=
  ⟨⟨by decide, rfl, rfl, by decide⟩,
    Gher_structured_output (libPerson marshalPerson) (InputType.struct ⟨[]⟩)
      (OutputType.struct Person) HelloStruct (post (lit "\x7b\"name\":\"World\"\x7d"))
      ⟨lit "World"⟩ ⟨lit "World"⟩ (lit "\x7b\"name\":\"World\"\x7d")
      (by decide) rfl rfl (by decide)⟩

/-- C4 fails on the code. On a request without a body `Decode` returns `io.EOF`, so the
handler answers 400 with `{"error": "failed to parse request"}` and does not invoke the
wrapped function, for `HelloEmpty` (input `struct{}`) and for `HelloInPointer` (input
`*Person`) alike, whatever `encoding/json` does elsewhere. `TestGherEmpty` expects 200
with body `empty`, `TestGherInPointerNil` expects 500 with `{"error": "nil pointer"}`. -/
theorem Gher_empty_body_rejected (libE : Lib Unit Bytes) (libP : Lib (Option Person) Bytes) :
    Gher libE (InputType.struct ()) OutputType.string HelloEmpty
        (ResponseWriter.fresh false) postNoBody =
      ⟨⟨[400], lit "\x7b\"error\": \"failed to parse request\"\x7d", false⟩, [], none⟩ ∧
    Gher libP (InputType.pointer Person) OutputType.string (HelloInPointer libP.isPrintWide)
        (ResponseWriter.fresh false) postNoBody =
      ⟨⟨[400], lit "\x7b\"error\": \"failed to parse request\"\x7d", false⟩, [], none⟩ := by
  have heof : ∀ {I O : Type} (lib : Lib I O) (v : I),
      json.Decoder.Decode lib postNoBody.Body v = .error io.EOF := by
    intro I O lib v
    rfl
  constructor
  · have hin := input_of_decode_error libE (InputType.struct ()) postNoBody Dyn.other io.EOF
      rfl (fun _ h => Dyn.noConfusion h) (heof libE ())
    unfold Gher
    rw [hin]
  · have hin := input_of_decode_error libP (InputType.pointer Person) postNoBody Dyn.other
      io.EOF rfl (fun _ h => Dyn.noConfusion h) (heof libP none)
    unfold Gher
    rw [hin]

/-- C5. With the input type `string` and a body that is read to its end without error, the
input is the body byte for byte, and the wrapped function is invoked exactly once, with
that input. -/
theorem Gher_string_input {O : Type} (lib : Lib Bytes O) (TO : OutputType O)
    (next : Bytes → Request → O × Option GoError) (w : ResponseWriter) (r : Request)
    (hread : r.Body.err = none) :
    Gher.input lib InputType.string w r = .ok (.inr r.Body.contents) ∧
      (Gher lib InputType.string TO next w r).calls = [r.Body.contents] := by
  have hin : Gher.input lib InputType.string w r = .ok (.inr r.Body.contents) := by
    simp [Gher.input, InputType.string, reflect.ValueOf, reflect.Value.Interface,
      assertString, bytes.Buffer.ReadFrom, hread]
  exact ⟨hin, Gher_calls_of_input lib InputType.string TO next w r _ hin⟩

/-- The theorem `Gher_string_input` at `TestGherInString`: `HelloInString` on the body
`World`. -/
theorem Gher_string_input_witness :
    (post (lit "World")).Body.err = none ∧
      (Gher.input (⟨wide, decodeText, marshalText⟩ : Lib Bytes Bytes) InputType.string
          (ResponseWriter.fresh false) (post (lit "World")) =
        .ok (.inr (post (lit "World")).Body.contents) ∧
      (Gher (⟨wide, decodeText, marshalText⟩ : Lib Bytes Bytes) InputType.string
          OutputType.string (HelloInString wide) (ResponseWriter.fresh false)
          (post (lit "World"))).calls = [(post (lit "World")).Body.contents]) :=
  ⟨rfl, Gher_string_input ⟨wide, decodeText, marshalText⟩ OutputType.string
    (HelloInString wide) (ResponseWriter.fresh false) (post (lit "World")) rfl⟩

/-- C6. When the input was acquired and the wrapped function returns a nil error and an
output implementing `io.Reader`, the handler leaves status 200 and a body equal to the
contents of the reader, nothing added. -/
theorem Gher_reader_output {I O : Type} (lib : Lib I O) (TI : InputType I)
    (TO : OutputType O) (next : I → Request → O × Option GoError) (r : Request)
    (i : I) (o : O) (src : Reader)
    (hin : Gher.input lib TI (ResponseWriter.fresh false) r = .ok (.inr i))
    (hnext : next i r = (o, none))
    (ho : TO.toAny o = some (Dyn.reader src)) :
    Gher lib TI TO next (ResponseWriter.fresh false) r =
      ⟨⟨[200], src.contents, false⟩, [i], none⟩ := by
  unfold Gher
  rw [hin]
  simp only [hnext, ho, reflect.ValueOf, reflect.Value.Interface, assertReader, io.Copy]
  rw [copyBuffer_ok _ _ _ rfl (by simp [ResponseWriter.WriteHeader])]
  simp [ResponseWriter.fresh, ResponseWriter.WriteHeader, StatusOK, Reader.contents]

/-- The theorem `Gher_reader_output` at `TestGherReader`: `HelloReader` on the body
`{"name":"World"}`. -/
theorem Gher_reader_output_witness :
    (Gher.input (libPerson marshalBuffer) (InputType.struct ⟨[]⟩) (ResponseWriter.fresh false)
          (post (lit "\x7b\"name\":\"World\"\x7d")) = .ok (.inr ⟨lit "World"⟩) ∧
      HelloReader wide ⟨lit "World"⟩ (post (lit "\x7b\"name\":\"World\"\x7d")) =
        (⟨[lit "Hello, World!"], none⟩, none) ∧
      OutputType.reader.toAny ⟨[lit "Hello, World!"], none⟩ =
        some (Dyn.reader ⟨[lit "Hello, World!"], none⟩)) ∧
    Gher (libPerson marshalBuffer) (InputType.struct ⟨[]⟩) OutputType.reader (HelloReader wide)
        (ResponseWriter.fresh false) (post (lit "\x7b\"name\":\"World\"\x7d")) =
      ⟨⟨[200], (⟨[lit "Hello, World!"], none⟩ : Reader).contents, false⟩,
        [⟨lit "World"⟩], none⟩ :=
  ⟨⟨by decide, by decide, rfl⟩,
    Gher_reader_output (libPerson marshalBuffer) (InputType.struct ⟨[]⟩) OutputType.reader
      (HelloReader wide) (post (lit "\x7b\"name\":\"World\"\x7d")) ⟨lit "World"⟩
      ⟨[lit "Hello, World!"], none⟩ ⟨[lit "Hello, World!"], none⟩
      (by decide) (by decide) rfl⟩

/-- C7. When the input was acquired and the wrapped function returns a nil error and an
output of type `string`, the handler leaves status 200 and a body equal to the bytes of
the string: no quotes, no escapes, no newline. -/
theorem Gher_string_output {I O : Type} (lib : Lib I O) (TI : InputType I)
    (TO : OutputType O) (next : I → Request → O × Option GoError) (r : Request)
    (i : I) (o : O) (s : Bytes)
    (hin : Gher.input lib TI (ResponseWriter.fresh false) r = .ok (.inr i))
    (hnext : next i r = (o, none))
    (ho : TO.toAny o = some (Dyn.string s)) :
    Gher lib TI TO next (ResponseWriter.fresh false) r =
      ⟨⟨[200], s, false⟩, [i], none⟩ := by
  unfold Gher
  rw [hin]
  simp [hnext, ho, reflect.ValueOf, reflect.Value.Interface, assertReader, assertString,
    ResponseWriter.Write, ResponseWriter.fresh, ResponseWriter.WriteHeader, StatusOK]

/-- The theorem `Gher_string_output` at `TestGherSuccess`: `Hello` on the body
`{"name":"World"}` answers `Hello, World!`. -/
theorem Gher_string_output_witness :
    (Gher.input (libPerson marshalText) (InputType.struct ⟨[]⟩) (ResponseWriter.fresh false)
          (post (lit "\x7b\"name\":\"World\"\x7d")) = .ok (.inr ⟨lit "World"⟩) ∧
      Hello wide ⟨lit "World"⟩ (post (lit "\x7b\"name\":\"World\"\x7d")) =
        (lit "Hello, World!", none) ∧
      OutputType.string.toAny (lit "Hello, World!") = some (Dyn.string (lit "Hello, World!"))) ∧
    Gher (libPerson marshalText) (InputType.struct ⟨[]⟩) OutputType.string (Hello wide)
        (ResponseWriter.fresh false) (post (lit "\x7b\"name\":\"World\"\x7d")) =
      ⟨⟨[200], lit "Hello, World!", false⟩, [⟨lit "World"⟩], none⟩ :=
  ⟨⟨by decide, by decide, rfl⟩,
    Gher_string_output (libPerson marshalText) (InputType.struct ⟨[]⟩) OutputType.string
      (Hello wide) (post (lit "\x7b\"name\":\"World\"\x7d")) ⟨lit "World"⟩
      (lit "Hello, World!") (lit "Hello, World!") (by decide) (by decide) rfl⟩

/-- C8 fails on the code. With a sink that rejects writes, `HelloStruct` on the body
`{"name":"World"}`: the encoder's write implies status 200 and fails, and the handler
then runs `WriteHeader(500)`, a second attempt, which the sink ignores. -/
theorem Gher_second_WriteHeader_when_write_fails :
    Gher (libPerson marshalPerson) (InputType.struct ⟨[]⟩) (OutputType.struct Person)
        HelloStruct (ResponseWriter.fresh true) (post (lit "\x7b\"name\":\"World\"\x7d")) =
      ⟨⟨[200, 500], [], true⟩, [⟨lit "World"⟩], none⟩ := by
  decide

/-- C9 as stated fails. With an output `json.Marshal` rejects (a channel), the input is
acquired, the only status code the sink receives is 500, and the status is not 200. -/
theorem Gher_marshal_error_counterexample :
    Gher.input (libPerson marshalChan) (InputType.struct ⟨[]⟩) (ResponseWriter.fresh false)
        (post (lit "\x7b\"name\":\"World\"\x7d")) = .ok (.inr ⟨lit "World"⟩) ∧
      (libPerson marshalChan).Marshal () = .error ⟨lit "json: unsupported type: chan int"⟩ ∧
      (Gher (libPerson marshalChan) (InputType.struct ⟨[]⟩) (OutputType.struct Unit)
          (fun _ _ => ((), none)) (ResponseWriter.fresh false)
          (post (lit "\x7b\"name\":\"World\"\x7d"))).w.headers = [500] ∧
      (Gher (libPerson marshalChan) (InputType.struct ⟨[]⟩) (OutputType.struct Unit)
          (fun _ _ => ((), none)) (ResponseWriter.fresh false)
          (post (lit "\x7b\"name\":\"World\"\x7d"))).w.status ≠ some 200 := by
  decide

/-- C9, as amended. When the wrapped function succeeds with an output that is neither a
reader nor a `string` and `json.Marshal` reports an error for it, the encoder returns
without having committed a status, and the handler writes status 500 with the body
`{"error": "failed to encode response"}`. -/
theorem Gher_marshal_error {I O : Type} (lib : Lib I O) (TI : InputType I)
    (TO : OutputType O) (next : I → Request → O × Option GoError) (r : Request)
    (i : I) (o : O) (e : GoError)
    (hin : Gher.input lib TI (ResponseWriter.fresh false) r = .ok (.inr i))
    (hnext : next i r = (o, none))
    (ho : TO.toAny o = some Dyn.other)
    (hm : lib.Marshal o = .error e) :
    (json.Encoder.Encode lib (ResponseWriter.fresh false) o).1.headers = [] ∧
      Gher lib TI TO next (ResponseWriter.fresh false) r =
        ⟨⟨[500], lit "\x7b\"error\": \"failed to encode response\"\x7d", false⟩, [i], none⟩ := by
  constructor
  · simp [json.Encoder.Encode, hm, ResponseWriter.fresh]
  · unfold Gher
    rw [hin]
    simp [hnext, ho, reflect.ValueOf, reflect.Value.Interface, assertReader, assertString,
      json.Encoder.Encode, hm, ResponseWriter.Write, ResponseWriter.fresh,
      ResponseWriter.WriteHeader, StatusInternalServerError]

/-- The theorem `Gher_marshal_error` at a handler from `Person` to a channel, on the body
`{"name":"World"}`. -/
theorem Gher_marshal_error_witness :
    (Gher.input (libPerson marshalChan) (InputType.struct ⟨[]⟩) (ResponseWriter.fresh false)
          (post (lit "\x7b\"name\":\"World\"\x7d")) = .ok (.inr ⟨lit "World"⟩) ∧
      (fun (_ : Person) (_ : Request) => ((), (none : Option GoError))) ⟨lit "World"⟩
          (post (lit "\x7b\"name\":\"World\"\x7d")) = ((), none) ∧
      (OutputType.struct Unit).toAny () = some Dyn.other ∧
      (libPerson marshalChan).Marshal () = .error ⟨lit "json: unsupported type: chan int"⟩) ∧
    ((json.Encoder.Encode (libPerson marshalChan) (ResponseWriter.fresh false) ()).1.headers = [] ∧
      Gher (libPerson marshalChan) (InputType.struct ⟨[]⟩) (OutputType.struct Unit)
          (fun _ _ => ((), none)) (ResponseWriter.fresh false)
          (post (lit "\x7b\"name\":\"World\"\x7d")) =
        ⟨⟨[500], lit "\x7b\"error\": \"failed to encode response\"\x7d", false⟩,
          [⟨lit "World"⟩], none⟩) :=
  ⟨⟨by decide, rfl, rfl, rfl⟩,
    Gher_marshal_error (libPerson marshalChan) (InputType.struct ⟨[]⟩) (OutputType.struct Unit)
      (fun _ _ => ((), none)) (post (lit "\x7b\"name\":\"World\"\x7d")) ⟨lit "World"⟩ ()
      ⟨lit "json: unsupported type: chan int"⟩ (by decide) rfl rfl rfl⟩

/-- C10 fails on the code. With the input type `any` the zero input is the nil interface,
`reflect.ValueOf` gives the zero Value and `Interface` panics: every call ends in that
panic with nothing written to the sink. With the output type `any` and a wrapped
function returning `nil, nil`, the same panic ends the call after the function ran,
again with no status code written. -/
theorem Gher_panics_on_nil_interface {O : Type} (lib : Lib Iface O) (TO : OutputType O)
    (next : Iface → Request → O × Option GoError) (w : ResponseWriter) (r : Request)
    (marshal : Iface → Except GoError Bytes) :
    Gher lib InputType.any TO next w r =
        ⟨w, [], some ⟨"reflect: call of reflect.Value.Interface on zero Value"⟩⟩ ∧
      Gher (libPerson marshal) (InputType.struct ⟨[]⟩) OutputType.any
          (fun _ _ => (none, none)) (ResponseWriter.fresh false)
          (post (lit "\x7b\"name\":\"World\"\x7d")) =
        ⟨ResponseWriter.fresh false, [⟨lit "World"⟩],
          some ⟨"reflect: call of reflect.Value.Interface on zero Value"⟩⟩ := by
  constructor
  · rfl
  · rfl

/-- With type arguments that are not interface types (their values box to a non-nil
interface, and `SetString` works where the zero value is a `string`), no call panics. -/
theorem Gher_no_panic {I O : Type} (lib : Lib I O) (TI : InputType I)
    (TO : OutputType O) (next : I → Request → O × Option GoError)
    (w : ResponseWriter) (r : Request)
    (hI : TI.toAny TI.zero ≠ none)
    (hS : ∀ s b, TI.toAny TI.zero = some (Dyn.string s) → ∃ v, TI.SetString b = .ok v)
    (hO : ∀ o, TO.toAny o ≠ none) :
    (Gher lib TI TO next w r).panic = none := by
  have hin : ∀ p, Gher.input lib TI w r ≠ .error p := by
    intro p h
    cases hz : TI.toAny TI.zero with
    | none => exact hI hz
    | some d =>
      cases d with
      | string s =>
        obtain ⟨v, hv⟩ := hS s (bytes.Buffer.ReadFrom r.Body).1 hz
        simp only [Gher.input, hz, reflect.ValueOf, reflect.Value.Interface,
          assertString] at h
        split at h
        · cases h
        · rename_i buffer heq
          have hb : buffer = (bytes.Buffer.ReadFrom r.Body).1 := by rw [heq]
          rw [hb, hv] at h
          cases h
      | reader src =>
        simp only [Gher.input, hz, reflect.ValueOf, reflect.Value.Interface,
          assertString] at h
        split at h <;> cases h
      | other =>
        simp only [Gher.input, hz, reflect.ValueOf, reflect.Value.Interface,
          assertString] at h
        split at h <;> cases h
  cases hi : Gher.input lib TI w r with
  | error p => exact absurd hi (hin p)
  | ok v =>
    cases v with
    | inl w1 => simp [Gher, hi]
    | inr i =>
      cases hnext : next i r with
      | mk o oe =>
        cases oe with
        | some err => simp [Gher, hi, hnext]
        | none =>
          cases ho : TO.toAny o with
          | none => exact absurd ho (hO o)
          | some d =>
            cases d with
            | string s =>
              simp [Gher, hi, hnext, ho, reflect.ValueOf, reflect.Value.Interface,
                assertReader, assertString]
            | reader src =>
              simp [Gher, hi, hnext, ho, reflect.ValueOf, reflect.Value.Interface,
                assertReader]
            | other =>
              simp only [Gher, hi, hnext, ho, reflect.ValueOf, reflect.Value.Interface,
                assertReader, assertString]
              split <;> rfl

/-- C2 fails on the code. With the input type `any`, a structured input type, and the
body `invalid json`, on which decoding into an `any` reports an error, the handler does
not answer 400: the zero input is the nil interface, `Interface` panics at line 20
before the decoder is reached, and no status code is written. -/
theorem Gher_parse_error_lost_on_interface_input :
    json.Decoder.Decode libAny (post (lit "invalid json")).Body InputType.any.zero =
        .error ⟨lit "invalid character 'i' looking for beginning of value"⟩ ∧
      Gher libAny InputType.any OutputType.string (fun _ _ => (lit "Hello!", none))
          (ResponseWriter.fresh false) (post (lit "invalid json")) =
        ⟨ResponseWriter.fresh false, [],
          some ⟨"reflect: call of reflect.Value.Interface on zero Value"⟩⟩ ∧
      (Gher libAny InputType.any OutputType.string (fun _ _ => (lit "Hello!", none))
          (ResponseWriter.fresh false) (post (lit "invalid json"))).w.status ≠ some 400 := by
  refine ⟨by decide, rfl, ?_⟩
  decide

/-- C3 fails on the code. With the output type `any` and a wrapped function that returns
the nil interface with a nil error, the input is acquired and the output is neither a
reader nor a `string`, yet whatever `json.Marshal` gives for it (`null`, in Go) the
handler does not answer 200 with that encoding and a newline: `Interface` panics at
line 46 after the function ran, and no status code is written. -/
theorem Gher_nil_output_not_encoded (marshal : Iface → Except GoError Bytes) (b : Bytes) :
    Gher.input (libPerson marshal) (InputType.struct ⟨[]⟩) (ResponseWriter.fresh false)
        (post (lit "\x7b\"name\":\"World\"\x7d")) = .ok (.inr ⟨lit "World"⟩) ∧
      assertReader (OutputType.any.toAny none) = none ∧
      assertString (OutputType.any.toAny none) = none ∧
      Gher (libPerson marshal) (InputType.struct ⟨[]⟩) OutputType.any
          (fun _ _ => (none, none)) (ResponseWriter.fresh false)
          (post (lit "\x7b\"name\":\"World\"\x7d")) =
        ⟨ResponseWriter.fresh false, [⟨lit "World"⟩],
          some ⟨"reflect: call of reflect.Value.Interface on zero Value"⟩⟩ ∧
      Gher (libPerson marshal) (InputType.struct ⟨[]⟩) OutputType.any
          (fun _ _ => (none, none)) (ResponseWriter.fresh false)
          (post (lit "\x7b\"name\":\"World\"\x7d")) ≠
        ⟨⟨[200], b ++ [10], false⟩, [⟨lit "World"⟩], none⟩ := by
  have hres : Gher (libPerson marshal) (InputType.struct ⟨[]⟩) OutputType.any
      (fun _ _ => (none, none)) (ResponseWriter.fresh false)
      (post (lit "\x7b\"name\":\"World\"\x7d")) =
      ⟨ResponseWriter.fresh false, [⟨lit "World"⟩],
        some ⟨"reflect: call of reflect.Value.Interface on zero Value"⟩⟩ := rfl
  refine ⟨rfl, rfl, rfl, hres, ?_⟩
  rw [hres]
  intro h
  have hp := congrArg Exchange.panic h
  simp at hp

end gher
